import Mathlib

/-!
Shallow embedding of the BriPlanner task store (src/server.js) and the
checklist progress computation (public app script).  Tasks form a forest of
owned values; ids are modelled as natural numbers issued by a fresh counter
(the source uses uuidv4); timestamps are natural numbers supplied by the
caller as `now` (the source reads the wall clock at each mutation).
-/

namespace BriPlanner

structure ChecklistItem where
  id : Nat
  text : String
  completed : Bool
  deriving DecidableEq

structure EmailReminder where
  sentAt : Nat
  toAddr : String
  previewUrl : String
  deriving DecidableEq

structure TaskData where
  id : Nat
  title : String
  description : String
  completed : Bool
  checklist : List ChecklistItem
  emailReminder : Option EmailReminder
  createdAt : Nat
  updatedAt : Nat
  deriving DecidableEq

/-- A task: a node in the forest.  `children` is an owned list of sub-tasks,
mirroring the nested JSON objects of the source. -/
inductive Task : Type where
  | node (data : TaskData) (children : List Task)

def Task.data : Task → TaskData
  | node d _ => d

def Task.children : Task → List Task
  | node _ c => c

def Task.id (t : Task) : Nat := t.data.id

def Task.title (t : Task) : String := t.data.title

def Task.completed (t : Task) : Bool := t.data.completed

def Task.createdAt (t : Task) : Nat := t.data.createdAt

def Task.updatedAt (t : Task) : Nat := t.data.updatedAt

/-- `findTaskById` from src/server.js lines 256-267: for each task of the
list, first compare the task's own id, then search its children recursively,
then move on to the rest of the list; return the first match. -/
def findTaskById (id : Nat) : List Task → Option Task
  | [] => none
  | Task.node d c :: rest =>
    if d.id = id then some (Task.node d c)
    else
      match findTaskById id c with
      | some found => some found
      | none => findTaskById id rest

/-- `removeTaskById` from src/server.js lines 270-283: same traversal order
as `findTaskById`; splices out the first matching task (with its whole
subtree) and reports whether a task was removed. -/
def removeTaskById (id : Nat) : List Task → Bool × List Task
  | [] => (false, [])
  | Task.node d c :: rest =>
    if d.id = id then (true, rest)
    else
      let resC := removeTaskById id c
      if resC.fst then (true, Task.node d resC.snd :: rest)
      else
        let resR := removeTaskById id rest
        (resR.fst, Task.node d c :: resR.snd)

/-- Depth-first (preorder) flattening of a forest: each task before its
children, children before later siblings — the traversal order of
`findTaskById`. -/
def preorder : List Task → List Task
  | [] => []
  | Task.node d c :: rest => Task.node d c :: (preorder c ++ preorder rest)

/-- All task ids of a forest, in depth-first order. -/
def allIds : List Task → List Nat
  | [] => []
  | Task.node d c :: rest => d.id :: (allIds c ++ allIds rest)

/-- All checklist-item ids of a forest, in depth-first order. -/
def allItemIds : List Task → List Nat
  | [] => []
  | Task.node d c :: rest =>
    d.checklist.map ChecklistItem.id ++ (allItemIds c ++ allItemIds rest)

/-- The ids of a single task's subtree (the task and all its descendants). -/
def subtreeIds (t : Task) : List Nat := allIds [t]

/-- The server's mutable state: the top-level `tasks` array (src/server.js
line 44) plus the id counter standing in for uuidv4. -/
structure Store where
  tasks : List Task
  nextId : Nat

/-- The two client-error outcomes of the handlers: a 400 (missing required
field) or a 404 (id did not resolve). -/
inductive ApiError : Type where
  | validation (msg : String)
  | notFound (msg : String)
  deriving DecidableEq

/-- Rebuild the forest with the new child pushed onto the children of the
first task (in `findTaskById` order) whose id is `pid`, refreshing that
parent's `updatedAt` — the functional rendering of
`parentTask.children.push(newTask); parentTask.updatedAt = now` applied to
the task object `findTaskById` returned (src/server.js lines 86-92). -/
def addChildToFirst (pid : Nat) (child : Task) (now : Nat) : List Task → List Task
  | [] => []
  | Task.node d c :: rest =>
    if d.id = pid then Task.node { d with updatedAt := now } (c ++ [child]) :: rest
    else if (findTaskById pid c).isSome then
      Task.node d (addChildToFirst pid child now c) :: rest
    else Task.node d c :: addChildToFirst pid child now rest

/-- Rebuild the forest with `f` applied to the first task (in `findTaskById`
order) whose id is `id` — the functional rendering of mutating the task
object that `findTaskById` returned. -/
def updateFirst (id : Nat) (f : Task → Task) : List Task → List Task
  | [] => []
  | Task.node d c :: rest =>
    if d.id = id then f (Task.node d c) :: rest
    else if (findTaskById id c).isSome then
      Task.node d (updateFirst id f c) :: rest
    else Task.node d c :: updateFirst id f rest

/-- The fresh task record built by POST /api/tasks (src/server.js lines
73-83): new id, given title/description, not completed, empty checklist and
children, no reminder, both timestamps set to now. -/
def newTaskFor (nid : Nat) (title description : String) (now : Nat) : Task :=
  Task.node
    { id := nid
      title := title
      description := description
      completed := false
      checklist := []
      emailReminder := none
      createdAt := now
      updatedAt := now } []

/-- POST /api/tasks (src/server.js lines 66-98).  `title` and `description`
are `Option String` (`none` = field absent from the JSON body); the source's
falsy check `if (!title)` rejects both an absent and an empty title. -/
def createTask (title description : Option String) (parentId : Option Nat)
    (now : Nat) (s : Store) : Except ApiError Task × Store :=
  if title.getD "" = "" then
    (Except.error (ApiError.validation "Title is required"), s)
  else
    let newTask : Task := newTaskFor s.nextId (title.getD "") (description.getD "") now
    match parentId with
    | some pid =>
      if (findTaskById pid s.tasks).isSome then
        (Except.ok newTask,
         { tasks := addChildToFirst pid newTask now s.tasks, nextId := s.nextId + 1 })
      else (Except.error (ApiError.notFound "Parent task not found"), s)
    | none =>
      (Except.ok newTask,
       { tasks := s.tasks ++ [newTask], nextId := s.nextId + 1 })

/-- The JSON body of PUT /api/tasks/:id: each field independently optional
(`none` = key absent, i.e. `undefined` in the source's
`!== undefined` checks). -/
structure UpdatePayload where
  title : Option String
  description : Option String
  completed : Option Bool
  checklist : Option (List ChecklistItem)
  emailReminder : Option (Option EmailReminder)

/-- Field application of PUT /api/tasks/:id (src/server.js lines 107-114):
each provided field overwrites, each absent field is kept; `updatedAt` is
set unconditionally; `id`, `createdAt` and `children` are untouched. -/
def applyUpdate (p : UpdatePayload) (now : Nat) : Task → Task
  | Task.node d c =>
    Task.node
      { d with
        title := p.title.getD d.title
        description := p.description.getD d.description
        completed := p.completed.getD d.completed
        checklist := p.checklist.getD d.checklist
        emailReminder := p.emailReminder.getD d.emailReminder
        updatedAt := now } c

/-- PUT /api/tasks/:id (src/server.js lines 101-117). -/
def updateTask (id : Nat) (p : UpdatePayload) (now : Nat) (s : Store) :
    Except ApiError Task × Store :=
  match findTaskById id s.tasks with
  | none => (Except.error (ApiError.notFound "Task not found"), s)
  | some t =>
    (Except.ok (applyUpdate p now t),
     { s with tasks := updateFirst id (applyUpdate p now) s.tasks })

/-- DELETE /api/tasks/:id (src/server.js lines 120-129): the boolean is the
found/not-found outcome. -/
def deleteTask (id : Nat) (s : Store) : Bool × Store :=
  let res := removeTaskById id s.tasks
  (res.fst, { s with tasks := res.snd })

/-- POST /api/tasks/:id/checklist (src/server.js lines 132-153).  The task
is resolved first (404), then the text is validated (400). -/
def addChecklistItem (taskId : Nat) (text : Option String) (now : Nat)
    (s : Store) : Except ApiError ChecklistItem × Store :=
  match findTaskById taskId s.tasks with
  | none => (Except.error (ApiError.notFound "Task not found"), s)
  | some _ =>
    if text.getD "" = "" then
      (Except.error (ApiError.validation "Checklist item text is required"), s)
    else
      let item : ChecklistItem :=
        { id := s.nextId, text := text.getD "", completed := false }
      let f : Task → Task := fun t =>
        Task.node
          { t.data with checklist := t.data.checklist ++ [item], updatedAt := now }
          t.children
      (Except.ok item,
       { tasks := updateFirst taskId f s.tasks, nextId := s.nextId + 1 })

/-- Field application of PUT /api/tasks/:taskId/checklist/:itemId
(src/server.js lines 167-169). -/
def applyItemUpdate (text : Option String) (completed : Option Bool)
    (i : ChecklistItem) : ChecklistItem :=
  { i with text := text.getD i.text, completed := completed.getD i.completed }

/-- Mutation of the first checklist item whose id matches — the functional
rendering of mutating the object returned by `checklist.find(...)`. -/
def updateFirstItem (itemId : Nat) (g : ChecklistItem → ChecklistItem) :
    List ChecklistItem → List ChecklistItem
  | [] => []
  | i :: rest =>
    if i.id = itemId then g i :: rest else i :: updateFirstItem itemId g rest

/-- PUT /api/tasks/:taskId/checklist/:itemId (src/server.js lines 156-173). -/
def updateChecklistItem (taskId itemId : Nat) (text : Option String)
    (completed : Option Bool) (now : Nat) (s : Store) :
    Except ApiError ChecklistItem × Store :=
  match findTaskById taskId s.tasks with
  | none => (Except.error (ApiError.notFound "Task not found"), s)
  | some t =>
    match t.data.checklist.find? (fun i => i.id == itemId) with
    | none => (Except.error (ApiError.notFound "Checklist item not found"), s)
    | some item =>
      let f : Task → Task := fun u =>
        Task.node
          { u.data with
            checklist := updateFirstItem itemId (applyItemUpdate text completed)
              u.data.checklist
            updatedAt := now }
          u.children
      (Except.ok (applyItemUpdate text completed item),
       { s with tasks := updateFirst taskId f s.tasks })

/-- DELETE /api/tasks/:taskId/checklist/:itemId (src/server.js lines
176-191): `findIndex` then `splice(itemIndex, 1)`. -/
def removeChecklistItem (taskId itemId : Nat) (now : Nat) (s : Store) :
    Except ApiError Unit × Store :=
  match findTaskById taskId s.tasks with
  | none => (Except.error (ApiError.notFound "Task not found"), s)
  | some t =>
    match t.data.checklist.findIdx? (fun i => i.id == itemId) with
    | none => (Except.error (ApiError.notFound "Checklist item not found"), s)
    | some idx =>
      let f : Task → Task := fun u =>
        Task.node
          { u.data with
            checklist := u.data.checklist.eraseIdx idx
            updatedAt := now }
          u.children
      (Except.ok (), { s with tasks := updateFirst taskId f s.tasks })

/-- The store mutation of POST /api/tasks/:id/email after a successful relay
send (src/server.js lines 194-248): resolve the task (404), require a
recipient (400), then record the reminder and refresh `updatedAt`.  The
relay call itself is an external collaborator and is not modelled. -/
def recordEmailReminder (taskId : Nat) (recipient : Option String)
    (sentAt : Nat) (previewUrl : String) (s : Store) :
    Except ApiError Unit × Store :=
  match findTaskById taskId s.tasks with
  | none => (Except.error (ApiError.notFound "Task not found"), s)
  | some _ =>
    if recipient.getD "" = "" then
      (Except.error (ApiError.validation "Email recipient is required"), s)
    else
      let f : Task → Task := fun u =>
        Task.node
          { u.data with
            emailReminder := some
              { sentAt := sentAt, toAddr := recipient.getD "", previewUrl := previewUrl }
            updatedAt := sentAt }
          u.children
      (Except.ok (), { s with tasks := updateFirst taskId f s.tasks })

/-- The checklist progress computation of `renderChecklist`
(public app script): percentage is `completed / total * 100` when the
checklist is non-empty and 0 otherwise; modelled over ℚ. -/
def progressPercent (checklist : List ChecklistItem) : ℚ :=
  let checklistTotal := checklist.length
  let checklistCompleted := (checklist.filter (fun i => i.completed)).length
  if 0 < checklistTotal then
    ((checklistCompleted : ℚ) / (checklistTotal : ℚ)) * 100
  else 0

/-- All ids in use in a store: task ids followed by checklist-item ids. -/
def usedIds (s : Store) : List Nat := allIds s.tasks ++ allItemIds s.tasks

/-- Id bookkeeping invariant: no id is in use twice, and every id in use is
below the allocation counter. -/
def Inv (s : Store) : Prop :=
  (usedIds s).Nodup ∧ ∀ i ∈ usedIds s, i < s.nextId

/-- The store states reachable through the API handlers, starting from the
empty `tasks` array (src/server.js line 44), where every PUT /api/tasks/:id
body satisfies `ok`.  Handlers that reject their input return the store
unchanged, so quantifying over all calls (not only successful ones) is
harmless. -/
inductive Reach (ok : UpdatePayload → Prop) : Store → Prop where
  | init : Reach ok { tasks := [], nextId := 0 }
  | createStep (title desc : Option String) (pid : Option Nat) (now : Nat) {s : Store} :
      Reach ok s → Reach ok (createTask title desc pid now s).snd
  | updateStep (id : Nat) (p : UpdatePayload) (now : Nat) {s : Store} :
      Reach ok s → ok p → Reach ok (updateTask id p now s).snd
  | deleteStep (id : Nat) {s : Store} : Reach ok s → Reach ok (deleteTask id s).snd
  | addItemStep (taskId : Nat) (text : Option String) (now : Nat) {s : Store} :
      Reach ok s → Reach ok (addChecklistItem taskId text now s).snd
  | updateItemStep (taskId itemId : Nat) (text : Option String)
      (completed : Option Bool) (now : Nat) {s : Store} :
      Reach ok s → Reach ok (updateChecklistItem taskId itemId text completed now s).snd
  | removeItemStep (taskId itemId now : Nat) {s : Store} :
      Reach ok s → Reach ok (removeChecklistItem taskId itemId now s).snd
  | emailStep (taskId : Nat) (recipient : Option String) (sentAt : Nat) (url : String)
      {s : Store} :
      Reach ok s → Reach ok (recordEmailReminder taskId recipient sentAt url s).snd

/-! ### Basic structural lemmas -/

theorem Task.eta (t : Task) : Task.node t.data t.children = t := by
  cases t
  rfl

@[simp]
theorem Task.data_node (d : TaskData) (c : List Task) : (Task.node d c).data = d := rfl

@[simp]
theorem Task.children_node (d : TaskData) (c : List Task) :
    (Task.node d c).children = c := rfl

@[simp]
theorem Task.id_node (d : TaskData) (c : List Task) : (Task.node d c).id = d.id := rfl

@[simp]
theorem Task.title_node (d : TaskData) (c : List Task) :
    (Task.node d c).title = d.title := rfl

@[simp]
theorem Task.completed_node (d : TaskData) (c : List Task) :
    (Task.node d c).completed = d.completed := rfl

@[simp]
theorem Task.createdAt_node (d : TaskData) (c : List Task) :
    (Task.node d c).createdAt = d.createdAt := rfl

@[simp]
theorem Task.updatedAt_node (d : TaskData) (c : List Task) :
    (Task.node d c).updatedAt = d.updatedAt := rfl

theorem preorder_append (a b : List Task) :
    preorder (a ++ b) = preorder a ++ preorder b := by
  induction a using preorder.induct with
  | case1 => simp [preorder]
  | case2 d c rest ihc ihr => simp [preorder, ihr]

theorem allIds_append (a b : List Task) :
    allIds (a ++ b) = allIds a ++ allIds b := by
  induction a using allIds.induct with
  | case1 => simp [allIds]
  | case2 d c rest ihc ihr => simp [allIds, ihr]

theorem allItemIds_append (a b : List Task) :
    allItemIds (a ++ b) = allItemIds a ++ allItemIds b := by
  induction a using allItemIds.induct with
  | case1 => simp [allItemIds]
  | case2 d c rest ihc ihr => simp [allItemIds, ihr]

theorem map_id_preorder (ts : List Task) :
    (preorder ts).map Task.id = allIds ts := by
  induction ts using preorder.induct with
  | case1 => simp [preorder, allIds]
  | case2 d c rest ihc ihr => simp [preorder, allIds, ihc, ihr]

/-! ### `findTaskById` is first-match search over the preorder traversal -/

theorem find_eq_find? (id : Nat) (ts : List Task) :
    findTaskById id ts = (preorder ts).find? (fun t => t.id == id) := by
  induction ts using findTaskById.induct id with
  | case1 => simp [findTaskById, preorder]
  | case2 d c rest h => simp [findTaskById, preorder, h]
  | case3 d c rest h found hf ihc =>
    rw [ihc] at hf
    simp [findTaskById, preorder, h, List.find?_append, ihc, hf]
  | case4 d c rest h hf ihc ihr =>
    rw [ihc] at hf
    simp [findTaskById, preorder, h, List.find?_append, ihc, hf, ihr]

theorem find_id_of_eq_some {id : Nat} {ts : List Task} {t : Task}
    (h : findTaskById id ts = some t) : t.id = id := by
  rw [find_eq_find? id ts] at h
  simpa using List.find?_some h

theorem mem_preorder_of_find {id : Nat} {ts : List Task} {t : Task}
    (h : findTaskById id ts = some t) : t ∈ preorder ts := by
  rw [find_eq_find? id ts] at h
  exact List.mem_of_find?_eq_some h

theorem find_eq_none_iff {id : Nat} {ts : List Task} :
    findTaskById id ts = none ↔ id ∉ allIds ts := by
  rw [find_eq_find? id ts, List.find?_eq_none, ← map_id_preorder]
  constructor
  · intro h hmem
    rcases List.mem_map.mp hmem with ⟨t, ht, hid⟩
    exact h t ht (by simpa using hid)
  · intro h t ht hp
    exact h (List.mem_map.mpr ⟨t, ht, by simpa using hp⟩)

theorem find_isSome_iff {id : Nat} {ts : List Task} :
    (findTaskById id ts).isSome = true ↔ id ∈ allIds ts := by
  rw [Option.isSome_iff_ne_none, Ne, find_eq_none_iff, not_not]

theorem find_append (id : Nat) (a b : List Task) :
    findTaskById id (a ++ b) = (findTaskById id a).or (findTaskById id b) := by
  rw [find_eq_find? id (a ++ b), find_eq_find? id a, find_eq_find? id b,
    preorder_append, List.find?_append]

/-! ### `removeTaskById` versus `findTaskById` -/

theorem remove_fst_eq (id : Nat) (ts : List Task) :
    (removeTaskById id ts).fst = (findTaskById id ts).isSome := by
  induction ts using findTaskById.induct id with
  | case1 => simp [removeTaskById, findTaskById]
  | case2 d c rest h => simp [removeTaskById, findTaskById, h]
  | case3 d c rest h found hf ihc =>
    simp [removeTaskById, findTaskById, h, hf, ihc]
  | case4 d c rest h hf ihc ihr =>
    simp [removeTaskById, findTaskById, h, hf, ihc, ihr]

theorem remove_of_find_none (id : Nat) (ts : List Task) :
    findTaskById id ts = none → removeTaskById id ts = (false, ts) := by
  induction ts using findTaskById.induct id with
  | case1 => intro _; simp [removeTaskById]
  | case2 d c rest hd => intro h; simp [findTaskById, hd] at h
  | case3 d c rest hd found hf ihc => intro h; simp [findTaskById, hd, hf] at h
  | case4 d c rest hd hf ihc ihr =>
    intro h
    simp only [findTaskById, if_neg hd, hf] at h
    simp [removeTaskById, ihc hf, ihr h, hd]

/-- When `findTaskById` resolves `id` to `t`, removal excises exactly the
contiguous block of `t`'s subtree ids from the depth-first id listing, and
that block is located at the first occurrence of `id`. -/
theorem remove_decomp (id : Nat) (ts : List Task) :
    ∀ t, findTaskById id ts = some t →
      ∃ X Y, allIds ts = X ++ (subtreeIds t ++ Y) ∧ id ∉ X ∧
        allIds (removeTaskById id ts).snd = X ++ Y := by
  induction ts using findTaskById.induct id with
  | case1 => intro t ht; simp [findTaskById] at ht
  | case2 d c rest hd =>
    intro t ht
    rw [findTaskById] at ht
    rw [if_pos hd] at ht
    obtain rfl : Task.node d c = t := by simpa using ht
    refine ⟨[], allIds rest, ?_, by simp, ?_⟩
    · simp [allIds, subtreeIds]
    · simp [removeTaskById, hd, allIds]
  | case3 d c rest hd found hf ihc =>
    intro t ht
    rw [findTaskById] at ht
    rw [if_neg hd] at ht
    rw [hf] at ht
    have htf : found = t := by simpa using ht
    subst htf
    obtain ⟨X, Y, h1, h2, h3⟩ := ihc found hf
    refine ⟨d.id :: X, Y ++ allIds rest, ?_, ?_, ?_⟩
    · simp [allIds, h1]
    · intro hmem
      rcases List.mem_cons.mp hmem with h | h
      · exact hd h.symm
      · exact h2 h
    · have hfst : (removeTaskById id c).fst = true := by
        rw [remove_fst_eq, hf]
        rfl
      simp [removeTaskById, hd, hfst, allIds, h3]
  | case4 d c rest hd hf ihc ihr =>
    intro t ht
    rw [findTaskById] at ht
    rw [if_neg hd] at ht
    rw [hf] at ht
    obtain ⟨X, Y, h1, h2, h3⟩ := ihr t ht
    refine ⟨d.id :: (allIds c ++ X), Y, ?_, ?_, ?_⟩
    · simp [allIds, h1]
    · intro hmem
      rcases List.mem_cons.mp hmem with h | h
      · exact hd h.symm
      · rcases List.mem_append.mp h with h' | h'
        · exact (find_eq_none_iff.mp hf) h'
        · exact h2 h'
    · simp [removeTaskById, hd, remove_of_find_none id c hf, allIds, h3]

theorem remove_allIds_sublist (id : Nat) (ts : List Task) :
    List.Sublist (allIds (removeTaskById id ts).snd) (allIds ts) := by
  induction ts using findTaskById.induct id with
  | case1 => simp [removeTaskById]
  | case2 d c rest hd =>
    simp only [removeTaskById, if_pos hd, allIds]
    exact ((List.sublist_append_right _ _).cons _)
  | case3 d c rest hd found hf ihc =>
    have hfst : (removeTaskById id c).fst = true := by
      rw [remove_fst_eq, hf]
      rfl
    simp only [removeTaskById, if_neg hd, hfst, if_pos trivial, allIds, if_true]
    exact (ihc.append (List.Sublist.refl _)).cons₂ _
  | case4 d c rest hd hf ihc ihr =>
    simp only [removeTaskById, if_neg hd, remove_of_find_none id c hf, Bool.false_eq_true,
      if_false, allIds]
    exact ((List.Sublist.refl _).append ihr).cons₂ _

theorem remove_allItemIds_sublist (id : Nat) (ts : List Task) :
    List.Sublist (allItemIds (removeTaskById id ts).snd) (allItemIds ts) := by
  induction ts using findTaskById.induct id with
  | case1 => simp [removeTaskById]
  | case2 d c rest hd =>
    simp only [removeTaskById, if_pos hd, allItemIds]
    exact (List.sublist_append_right _ _).trans (List.sublist_append_right _ _)
  | case3 d c rest hd found hf ihc =>
    have hfst : (removeTaskById id c).fst = true := by
      rw [remove_fst_eq, hf]
      rfl
    simp only [removeTaskById, if_neg hd, hfst, if_true, allItemIds]
    exact (List.Sublist.refl _).append (ihc.append (List.Sublist.refl _))
  | case4 d c rest hd hf ihc ihr =>
    simp only [removeTaskById, if_neg hd, remove_of_find_none id c hf, Bool.false_eq_true,
      if_false, allItemIds]
    exact (List.Sublist.refl _).append ((List.Sublist.refl _).append ihr)

/-! ### Lemmas about `updateFirst` and `addChildToFirst` -/

theorem perm_shuffle (A S B : List Nat) :
    List.Perm (A ++ (S ++ B)) (S ++ (A ++ B)) := by
  have h2 := List.Perm.append_right B (@List.perm_append_comm Nat A S)
  simpa [List.append_assoc] using h2

theorem find_updateFirst (id : Nat) (f : Task → Task) (ts : List Task)
    (hid : ∀ t, (f t).id = t.id) :
    findTaskById id (updateFirst id f ts) = (findTaskById id ts).map f := by
  induction ts using updateFirst.induct id f with
  | case1 => simp [updateFirst, findTaskById]
  | case2 d c rest hd =>
    rcases hu : f (Task.node d c) with ⟨d', c'⟩
    have : d'.id = d.id := by
      have := hid (Task.node d c)
      rw [hu] at this
      simpa using this
    simp [updateFirst, hd, findTaskById, hu, this]
  | case3 d c rest hd hsome ihc =>
    rcases Option.isSome_iff_exists.mp hsome with ⟨m, hm⟩
    simp [updateFirst, hd, hsome, findTaskById, ihc, hm]
  | case4 d c rest hd hnone ihr =>
    have hn : findTaskById id c = none := by
      rcases h : findTaskById id c with _ | m
      · rfl
      · rw [h] at hnone
        simp at hnone
    simp [updateFirst, hd, hnone, findTaskById, hn, ihr]

theorem allIds_updateFirst (id : Nat) (f : Task → Task) (ts : List Task)
    (hid : ∀ t, (f t).id = t.id) (hch : ∀ t, (f t).children = t.children) :
    allIds (updateFirst id f ts) = allIds ts := by
  induction ts using updateFirst.induct id f with
  | case1 => simp [updateFirst]
  | case2 d c rest hd =>
    rcases hu : f (Task.node d c) with ⟨d', c'⟩
    have h1 : d'.id = d.id := by
      have := hid (Task.node d c)
      rw [hu] at this
      simpa using this
    have h2 : c' = c := by
      have := hch (Task.node d c)
      rw [hu] at this
      simpa using this
    simp [updateFirst, hd, allIds, hu, h1, h2]
  | case3 d c rest hd hsome ihc => simp [updateFirst, hd, hsome, allIds, ihc]
  | case4 d c rest hd hnone ihr => simp [updateFirst, hd, hnone, allIds, ihr]

theorem allItemIds_updateFirst (id : Nat) (f : Task → Task) (ts : List Task)
    (hch : ∀ t, (f t).children = t.children)
    (hcl : ∀ t, ((f t).data.checklist.map ChecklistItem.id) =
      (t.data.checklist.map ChecklistItem.id)) :
    allItemIds (updateFirst id f ts) = allItemIds ts := by
  induction ts using updateFirst.induct id f with
  | case1 => simp [updateFirst]
  | case2 d c rest hd =>
    rcases hu : f (Task.node d c) with ⟨d', c'⟩
    have h1 : d'.checklist.map ChecklistItem.id = d.checklist.map ChecklistItem.id := by
      have := hcl (Task.node d c)
      rw [hu] at this
      simpa using this
    have h2 : c' = c := by
      have := hch (Task.node d c)
      rw [hu] at this
      simpa using this
    simp [updateFirst, hd, allItemIds, hu, h1, h2]
  | case3 d c rest hd hsome ihc => simp [updateFirst, hd, hsome, allItemIds, ihc]
  | case4 d c rest hd hnone ihr => simp [updateFirst, hd, hnone, allItemIds, ihr]

theorem allItemIds_updateFirst_append (id : Nat) (item : ChecklistItem)
    (f : Task → Task) (ts : List Task)
    (hch : ∀ t, (f t).children = t.children)
    (hcl : ∀ t, (f t).data.checklist = t.data.checklist ++ [item]) :
    (findTaskById id ts).isSome = true →
    List.Perm (allItemIds (updateFirst id f ts)) (item.id :: allItemIds ts) := by
  induction ts using updateFirst.induct id f with
  | case1 => intro h; simp [findTaskById] at h
  | case2 d c rest hd =>
    intro _
    rcases hu : f (Task.node d c) with ⟨d', c'⟩
    have h1 : d'.checklist = d.checklist ++ [item] := by
      have := hcl (Task.node d c)
      rw [hu] at this
      simpa using this
    have h2 : c' = c := by
      have := hch (Task.node d c)
      rw [hu] at this
      simpa using this
    simp only [updateFirst, if_pos hd, allItemIds, hu, h1, h2, List.map_append,
      List.map_cons, List.map_nil, List.append_assoc, List.singleton_append]
    exact List.perm_middle.trans (List.Perm.refl _)
  | case3 d c rest hd hsome ihc =>
    intro _
    simp only [updateFirst, if_neg hd, hsome, if_true, allItemIds]
    have ih := ihc hsome
    refine ((ih.append_right _).append_left _).trans ?_
    exact List.perm_middle
  | case4 d c rest hd hnone ihr =>
    intro hfound
    have hn : findTaskById id c = none := by
      rcases h : findTaskById id c with _ | m
      · rfl
      · rw [h] at hnone
        simp at hnone
    have hrest : (findTaskById id rest).isSome = true := by
      rw [findTaskById] at hfound
      rw [if_neg hd] at hfound
      rw [hn] at hfound
      exact hfound
    simp only [updateFirst, if_neg hd, hnone, if_false, allItemIds, Bool.false_eq_true]
    have ih := ihr hrest
    refine ((ih.append_left _).append_left _).trans ?_
    refine (List.Perm.append_left _ List.perm_middle).trans ?_
    exact List.perm_middle

theorem allItemIds_updateFirst_sublist (id : Nat) (f : Task → Task) (ts : List Task)
    (hch : ∀ t, (f t).children = t.children)
    (hcl : ∀ t, List.Sublist ((f t).data.checklist.map ChecklistItem.id)
      (t.data.checklist.map ChecklistItem.id)) :
    List.Sublist (allItemIds (updateFirst id f ts)) (allItemIds ts) := by
  induction ts using updateFirst.induct id f with
  | case1 => simp [updateFirst]
  | case2 d c rest hd =>
    rcases hu : f (Task.node d c) with ⟨d', c'⟩
    have h1 : List.Sublist (d'.checklist.map ChecklistItem.id)
        (d.checklist.map ChecklistItem.id) := by
      have := hcl (Task.node d c)
      rw [hu] at this
      simpa using this
    have h2 : c' = c := by
      have := hch (Task.node d c)
      rw [hu] at this
      simpa using this
    simp only [updateFirst, if_pos hd, allItemIds, hu, h2]
    exact h1.append (List.Sublist.refl _)
  | case3 d c rest hd hsome ihc =>
    simp only [updateFirst, if_neg hd, hsome, if_true, allItemIds]
    exact (List.Sublist.refl _).append (ihc.append (List.Sublist.refl _))
  | case4 d c rest hd hnone ihr =>
    simp only [updateFirst, if_neg hd, hnone, if_false, allItemIds, Bool.false_eq_true]
    exact (List.Sublist.refl _).append ((List.Sublist.refl _).append ihr)

theorem allIds_addChild (pid : Nat) (child : Task) (now : Nat) (ts : List Task) :
    (findTaskById pid ts).isSome = true →
    List.Perm (allIds (addChildToFirst pid child now ts))
      (subtreeIds child ++ allIds ts) := by
  induction ts using addChildToFirst.induct pid child now with
  | case1 => intro h; simp [findTaskById] at h
  | case2 d c rest hd =>
    intro _
    simp only [addChildToFirst, if_pos hd, allIds, allIds_append, subtreeIds]
    have step : List.Perm (d.id :: ((allIds c ++ allIds [child]) ++ allIds rest))
        (d.id :: (allIds [child] ++ (allIds c ++ allIds rest))) := by
      refine List.Perm.cons _ ?_
      rw [List.append_assoc]
      exact perm_shuffle _ _ _
    refine step.trans ?_
    exact (@List.perm_middle Nat d.id (allIds [child]) (allIds c ++ allIds rest)).symm
  | case3 d c rest hd hsome ihc =>
    intro _
    simp only [addChildToFirst, if_neg hd, hsome, if_true, allIds, subtreeIds]
    have ih := ihc hsome
    refine (List.Perm.cons d.id (ih.append_right _)).trans ?_
    rw [List.append_assoc]
    exact (@List.perm_middle Nat d.id (allIds [child]) (allIds c ++ allIds rest)).symm
  | case4 d c rest hd hnone ihr =>
    intro hfound
    have hn : findTaskById pid c = none := by
      rcases h : findTaskById pid c with _ | m
      · rfl
      · rw [h] at hnone
        simp at hnone
    have hrest : (findTaskById pid rest).isSome = true := by
      rw [findTaskById] at hfound
      rw [if_neg hd] at hfound
      rw [hn] at hfound
      exact hfound
    simp only [addChildToFirst, if_neg hd, hnone, if_false, allIds, subtreeIds,
      Bool.false_eq_true]
    have ih := ihr hrest
    refine (List.Perm.cons d.id (ih.append_left _)).trans ?_
    refine (List.Perm.cons d.id (perm_shuffle _ _ _)).trans ?_
    exact (@List.perm_middle Nat d.id (allIds [child]) (allIds c ++ allIds rest)).symm

theorem allItemIds_addChild (pid : Nat) (child : Task) (now : Nat) (ts : List Task) :
    (findTaskById pid ts).isSome = true →
    List.Perm (allItemIds (addChildToFirst pid child now ts))
      (allItemIds [child] ++ allItemIds ts) := by
  induction ts using addChildToFirst.induct pid child now with
  | case1 => intro h; simp [findTaskById] at h
  | case2 d c rest hd =>
    intro _
    simp only [addChildToFirst, if_pos hd, allItemIds, allItemIds_append]
    rw [← Multiset.coe_eq_coe]
    simp only [← Multiset.coe_add]
    abel
  | case3 d c rest hd hsome ihc =>
    intro _
    simp only [addChildToFirst, if_neg hd, hsome, if_true, allItemIds]
    have ih := Multiset.coe_eq_coe.mpr (ihc hsome)
    rw [← Multiset.coe_eq_coe]
    simp only [← Multiset.coe_add, ih]
    abel
  | case4 d c rest hd hnone ihr =>
    intro hfound
    have hn : findTaskById pid c = none := by
      rcases h : findTaskById pid c with _ | m
      · rfl
      · rw [h] at hnone
        simp at hnone
    have hrest : (findTaskById pid rest).isSome = true := by
      rw [findTaskById] at hfound
      rw [if_neg hd] at hfound
      rw [hn] at hfound
      exact hfound
    simp only [addChildToFirst, if_neg hd, hnone, if_false, allItemIds,
      Bool.false_eq_true]
    have ih := Multiset.coe_eq_coe.mpr (ihr hrest)
    rw [← Multiset.coe_eq_coe]
    simp only [← Multiset.coe_add, ih]
    abel

/-! ### Predicate preservation over all task data in the forest -/

theorem mem_preorder_cons {t : Task} {d : TaskData} {c rest : List Task} :
    t ∈ preorder (Task.node d c :: rest) ↔
      t = Task.node d c ∨ t ∈ preorder c ∨ t ∈ preorder rest := by
  simp [preorder]

theorem dataOK_remove (P : TaskData → Prop) (id : Nat) (ts : List Task) :
    (∀ t ∈ preorder ts, P t.data) →
    ∀ t ∈ preorder (removeTaskById id ts).snd, P t.data := by
  induction ts using findTaskById.induct id with
  | case1 => intro _; simp [removeTaskById, preorder]
  | case2 d c rest hd =>
    intro h t ht
    simp only [removeTaskById, if_pos hd] at ht
    exact h t (mem_preorder_cons.mpr (Or.inr (Or.inr ht)))
  | case3 d c rest hd found hf ihc =>
    intro h t ht
    have hfst : (removeTaskById id c).fst = true := by
      rw [remove_fst_eq, hf]
      rfl
    simp only [removeTaskById, if_neg hd, hfst, if_true] at ht
    rcases mem_preorder_cons.mp ht with h1 | h1 | h1
    · subst h1
      simpa using h _ (mem_preorder_cons.mpr (Or.inl rfl))
    · exact ihc (fun u hu => h u (mem_preorder_cons.mpr (Or.inr (Or.inl hu)))) t h1
    · exact h t (mem_preorder_cons.mpr (Or.inr (Or.inr h1)))
  | case4 d c rest hd hf ihc ihr =>
    intro h t ht
    simp only [removeTaskById, if_neg hd, remove_of_find_none id c hf,
      Bool.false_eq_true, if_false] at ht
    rcases mem_preorder_cons.mp ht with h1 | h1 | h1
    · subst h1
      simpa using h _ (mem_preorder_cons.mpr (Or.inl rfl))
    · exact h t (mem_preorder_cons.mpr (Or.inr (Or.inl h1)))
    · exact ihr (fun u hu => h u (mem_preorder_cons.mpr (Or.inr (Or.inr hu)))) t h1

theorem dataOK_updateFirst (P : TaskData → Prop) (id : Nat) (f : Task → Task)
    (ts : List Task) (hch : ∀ t, (f t).children = t.children)
    (hP : ∀ t, P t.data → P (f t).data) :
    (∀ t ∈ preorder ts, P t.data) →
    ∀ t ∈ preorder (updateFirst id f ts), P t.data := by
  induction ts using updateFirst.induct id f with
  | case1 => intro _; simp [updateFirst, preorder]
  | case2 d c rest hd =>
    intro h t ht
    simp only [updateFirst, if_pos hd] at ht
    rcases hu : f (Task.node d c) with ⟨d', c'⟩
    have hc' : c' = c := by
      have := hch (Task.node d c)
      rw [hu] at this
      simpa using this
    rw [hu] at ht
    rcases mem_preorder_cons.mp ht with h1 | h1 | h1
    · subst h1
      have hres := hP (Task.node d c) (by simpa using h _ (mem_preorder_cons.mpr (Or.inl rfl)))
      rw [hu] at hres
      simpa using hres
    · exact h t (mem_preorder_cons.mpr (Or.inr (Or.inl (hc' ▸ h1))))
    · exact h t (mem_preorder_cons.mpr (Or.inr (Or.inr h1)))
  | case3 d c rest hd hsome ihc =>
    intro h t ht
    simp only [updateFirst, if_neg hd, hsome, if_true] at ht
    rcases mem_preorder_cons.mp ht with h1 | h1 | h1
    · subst h1
      simpa using h _ (mem_preorder_cons.mpr (Or.inl rfl))
    · exact ihc (fun u hu => h u (mem_preorder_cons.mpr (Or.inr (Or.inl hu)))) t h1
    · exact h t (mem_preorder_cons.mpr (Or.inr (Or.inr h1)))
  | case4 d c rest hd hnone ihr =>
    intro h t ht
    simp only [updateFirst, if_neg hd, hnone, Bool.false_eq_true, if_false] at ht
    rcases mem_preorder_cons.mp ht with h1 | h1 | h1
    · subst h1
      simpa using h _ (mem_preorder_cons.mpr (Or.inl rfl))
    · exact h t (mem_preorder_cons.mpr (Or.inr (Or.inl h1)))
    · exact ihr (fun u hu => h u (mem_preorder_cons.mpr (Or.inr (Or.inr hu)))) t h1

theorem dataOK_addChild (P : TaskData → Prop) (pid : Nat) (child : Task) (now : Nat)
    (ts : List Task)
    (hupd : ∀ d : TaskData, P d → P { d with updatedAt := now })
    (hchild : ∀ t ∈ preorder [child], P t.data) :
    (∀ t ∈ preorder ts, P t.data) →
    ∀ t ∈ preorder (addChildToFirst pid child now ts), P t.data := by
  induction ts using addChildToFirst.induct pid child now with
  | case1 => intro _; simp [addChildToFirst, preorder]
  | case2 d c rest hd =>
    intro h t ht
    simp only [addChildToFirst, if_pos hd] at ht
    rcases mem_preorder_cons.mp ht with h1 | h1 | h1
    · subst h1
      exact hupd d (by simpa using h _ (mem_preorder_cons.mpr (Or.inl rfl)))
    · rw [preorder_append] at h1
      rcases List.mem_append.mp h1 with h2 | h2
      · exact h t (mem_preorder_cons.mpr (Or.inr (Or.inl h2)))
      · exact hchild t h2
    · exact h t (mem_preorder_cons.mpr (Or.inr (Or.inr h1)))
  | case3 d c rest hd hsome ihc =>
    intro h t ht
    simp only [addChildToFirst, if_neg hd, hsome, if_true] at ht
    rcases mem_preorder_cons.mp ht with h1 | h1 | h1
    · subst h1
      simpa using h _ (mem_preorder_cons.mpr (Or.inl rfl))
    · exact ihc (fun u hu => h u (mem_preorder_cons.mpr (Or.inr (Or.inl hu)))) t h1
    · exact h t (mem_preorder_cons.mpr (Or.inr (Or.inr h1)))
  | case4 d c rest hd hnone ihr =>
    intro h t ht
    simp only [addChildToFirst, if_neg hd, hnone, Bool.false_eq_true, if_false] at ht
    rcases mem_preorder_cons.mp ht with h1 | h1 | h1
    · subst h1
      simpa using h _ (mem_preorder_cons.mpr (Or.inl rfl))
    · exact h t (mem_preorder_cons.mpr (Or.inr (Or.inl h1)))
    · exact ihr (fun u hu => h u (mem_preorder_cons.mpr (Or.inr (Or.inr hu)))) t h1

/-! ### The id-uniqueness invariant -/

theorem applyUpdate_id (p : UpdatePayload) (now : Nat) (t : Task) :
    (applyUpdate p now t).id = t.id := by
  cases t
  simp [applyUpdate]

theorem applyUpdate_children (p : UpdatePayload) (now : Nat) (t : Task) :
    (applyUpdate p now t).children = t.children := by
  cases t
  simp [applyUpdate]

theorem applyUpdate_checklist_of_none (p : UpdatePayload) (now : Nat) (t : Task)
    (hp : p.checklist = none) :
    (applyUpdate p now t).data.checklist = t.data.checklist := by
  cases t
  simp [applyUpdate, hp]

theorem map_id_updateFirstItem (itemId : Nat) (g : ChecklistItem → ChecklistItem)
    (hg : ∀ i, (g i).id = i.id) (cl : List ChecklistItem) :
    (updateFirstItem itemId g cl).map ChecklistItem.id = cl.map ChecklistItem.id := by
  induction cl with
  | nil => simp [updateFirstItem]
  | cons i rest ih =>
    by_cases h : i.id = itemId <;> simp [updateFirstItem, h, ih, hg]

theorem nextId_not_used {s : Store} (h : Inv s) : s.nextId ∉ usedIds s := by
  intro hmem
  exact absurd (h.2 _ hmem) (lt_irrefl _)

theorem inv_insert_fresh {s : Store} (h : Inv s) (tasks2 : List Task)
    (hperm : List.Perm (allIds tasks2 ++ allItemIds tasks2) (s.nextId :: usedIds s)) :
    Inv { tasks := tasks2, nextId := s.nextId + 1 } := by
  constructor
  · have : (s.nextId :: usedIds s).Nodup := by
      rw [List.nodup_cons]
      exact ⟨nextId_not_used h, h.1⟩
    exact hperm.nodup_iff.mpr this
  · intro i hi
    have := hperm.mem_iff.mp hi
    rcases List.mem_cons.mp this with h1 | h1
    · subst h1
      exact Nat.lt_succ_self _
    · exact Nat.lt_succ_of_lt (h.2 i h1)

theorem inv_of_eq {s : Store} (h : Inv s) (tasks2 : List Task)
    (hids : allIds tasks2 = allIds s.tasks)
    (hitems : allItemIds tasks2 = allItemIds s.tasks) :
    Inv { s with tasks := tasks2 } := by
  constructor
  · show (allIds tasks2 ++ allItemIds tasks2).Nodup
    rw [hids, hitems]
    exact h.1
  · intro i hi
    apply h.2
    show i ∈ allIds s.tasks ++ allItemIds s.tasks
    rw [← hids, ← hitems]
    exact hi

theorem inv_of_sublist {s : Store} (h : Inv s) (tasks2 : List Task)
    (hids : List.Sublist (allIds tasks2) (allIds s.tasks))
    (hitems : List.Sublist (allItemIds tasks2) (allItemIds s.tasks)) :
    Inv { s with tasks := tasks2 } := by
  have hsub : List.Sublist (allIds tasks2 ++ allItemIds tasks2) (usedIds s) :=
    hids.append hitems
  constructor
  · exact hsub.nodup h.1
  · intro i hi
    exact h.2 i (hsub.subset hi)

/-! ### Per-operation invariant preservation -/

theorem allIds_newTaskFor (nid : Nat) (x y : String) (now : Nat) :
    allIds [newTaskFor nid x y now] = [nid] := by
  simp [newTaskFor, allIds]

theorem allItemIds_newTaskFor (nid : Nat) (x y : String) (now : Nat) :
    allItemIds [newTaskFor nid x y now] = [] := by
  simp [newTaskFor, allItemIds]

theorem inv_createTask (title desc : Option String) (pid : Option Nat) (now : Nat)
    (s : Store) (h : Inv s) : Inv (createTask title desc pid now s).snd := by
  by_cases ht : title.getD "" = ""
  · simpa [createTask, ht] using h
  · rcases pid with _ | pid0
    · simp only [createTask, ht, if_false, reduceCtorEq]
      refine inv_insert_fresh h _ ?_
      rw [← Multiset.coe_eq_coe]
      simp only [usedIds, allIds_append, allItemIds_append, allIds_newTaskFor,
        allItemIds_newTaskFor, ← Multiset.coe_add, ← Multiset.cons_coe,
        ← Multiset.singleton_add]
      simp only [Multiset.coe_singleton, Multiset.coe_nil]
      abel
    · by_cases hp : (findTaskById pid0 s.tasks).isSome = true
      · simp only [createTask, ht, if_false, hp, if_true, reduceCtorEq]
        refine inv_insert_fresh h _ ?_
        have h1 := Multiset.coe_eq_coe.mpr
          (allIds_addChild pid0
            (newTaskFor s.nextId (title.getD "") (desc.getD "") now) now s.tasks hp)
        have h2 := Multiset.coe_eq_coe.mpr
          (allItemIds_addChild pid0
            (newTaskFor s.nextId (title.getD "") (desc.getD "") now) now s.tasks hp)
        rw [← Multiset.coe_eq_coe]
        simp only [subtreeIds, allIds_newTaskFor, allItemIds_newTaskFor] at h1 h2
        simp only [usedIds, ← Multiset.coe_add, ← Multiset.cons_coe,
          ← Multiset.singleton_add, h1, h2]
        simp only [Multiset.coe_singleton, Multiset.coe_nil]
        abel
      · simp only [createTask, ht, if_false]
        simpa [hp] using h

theorem inv_updateTask (id : Nat) (p : UpdatePayload) (now : Nat) (s : Store)
    (hp : p.checklist = none) (h : Inv s) : Inv (updateTask id p now s).snd := by
  rcases hf : findTaskById id s.tasks with _ | t
  · simpa [updateTask, hf] using h
  · simp only [updateTask, hf]
    refine inv_of_eq h _ ?_ ?_
    · exact allIds_updateFirst id _ s.tasks (applyUpdate_id p now) (applyUpdate_children p now)
    · refine allItemIds_updateFirst id _ s.tasks (applyUpdate_children p now) ?_
      intro t
      rw [applyUpdate_checklist_of_none p now t hp]

theorem inv_deleteTask (id : Nat) (s : Store) (h : Inv s) :
    Inv (deleteTask id s).snd := by
  simp only [deleteTask]
  exact inv_of_sublist h _ (remove_allIds_sublist id s.tasks)
    (remove_allItemIds_sublist id s.tasks)

theorem inv_addChecklistItem (taskId : Nat) (text : Option String) (now : Nat)
    (s : Store) (h : Inv s) : Inv (addChecklistItem taskId text now s).snd := by
  rcases hf : findTaskById taskId s.tasks with _ | t
  · simpa [addChecklistItem, hf] using h
  · by_cases htx : text.getD "" = ""
    · simpa [addChecklistItem, hf, htx] using h
    · simp only [addChecklistItem, hf, htx, if_false, reduceCtorEq]
      refine inv_insert_fresh h _ ?_
      have hsome : (findTaskById taskId s.tasks).isSome = true := by
        rw [hf]
        rfl
      have h1 := allIds_updateFirst taskId
        (fun t => Task.node { t.data with checklist := t.data.checklist ++ [(⟨s.nextId, text.getD "", false⟩ : ChecklistItem)], updatedAt := now } t.children)
        s.tasks (fun t => by cases t; simp) (fun t => by cases t; simp)
      have h2 := Multiset.coe_eq_coe.mpr
        (allItemIds_updateFirst_append taskId (⟨s.nextId, text.getD "", false⟩ : ChecklistItem)
          (fun t => Task.node { t.data with checklist := t.data.checklist ++ [(⟨s.nextId, text.getD "", false⟩ : ChecklistItem)], updatedAt := now } t.children)
          s.tasks (fun t => by cases t; simp) (fun t => by cases t; simp) hsome)
      rw [← Multiset.coe_eq_coe]
      simp only [usedIds, ← Multiset.coe_add, ← Multiset.cons_coe,
        ← Multiset.singleton_add, h1, h2]
      abel

theorem inv_updateChecklistItem (taskId itemId : Nat) (text : Option String)
    (completed : Option Bool) (now : Nat) (s : Store) (h : Inv s) :
    Inv (updateChecklistItem taskId itemId text completed now s).snd := by
  rcases hf : findTaskById taskId s.tasks with _ | t
  · simpa [updateChecklistItem, hf] using h
  · rcases hi : t.data.checklist.find? (fun i => i.id == itemId) with _ | item
    · simpa [updateChecklistItem, hf, hi] using h
    · simp only [updateChecklistItem, hf, hi]
      refine inv_of_eq h _ ?_ ?_
      · exact allIds_updateFirst taskId _ s.tasks (fun t => by cases t; simp)
          (fun t => by cases t; simp)
      · refine allItemIds_updateFirst taskId _ s.tasks (fun t => by cases t; simp) ?_
        intro u
        cases u
        simp only [Task.data_node]
        exact map_id_updateFirstItem itemId _ (fun i => by simp [applyItemUpdate]) _

theorem inv_removeChecklistItem (taskId itemId : Nat) (now : Nat) (s : Store)
    (h : Inv s) : Inv (removeChecklistItem taskId itemId now s).snd := by
  rcases hf : findTaskById taskId s.tasks with _ | t
  · simpa [removeChecklistItem, hf] using h
  · rcases hi : t.data.checklist.findIdx? (fun i => i.id == itemId) with _ | idx
    · simpa [removeChecklistItem, hf, hi] using h
    · simp only [removeChecklistItem, hf, hi]
      refine inv_of_sublist h _ ?_ ?_
      · rw [allIds_updateFirst taskId _ s.tasks (fun t => by cases t; simp)
          (fun t => by cases t; simp)]
      · refine allItemIds_updateFirst_sublist taskId _ s.tasks
          (fun t => by cases t; simp) ?_
        intro u
        cases u
        simp only [Task.data_node]
        exact (List.eraseIdx_sublist _ idx).map _

theorem inv_recordEmailReminder (taskId : Nat) (recipient : Option String)
    (sentAt : Nat) (url : String) (s : Store) (h : Inv s) :
    Inv (recordEmailReminder taskId recipient sentAt url s).snd := by
  rcases hf : findTaskById taskId s.tasks with _ | t
  · simpa [recordEmailReminder, hf] using h
  · by_cases hr : recipient.getD "" = ""
    · simpa [recordEmailReminder, hf, hr] using h
    · simp only [recordEmailReminder, hf, hr, if_false, reduceCtorEq]
      refine inv_of_eq h _ ?_ ?_
      · exact allIds_updateFirst taskId _ s.tasks (fun t => by cases t; simp)
          (fun t => by cases t; simp)
      · exact allItemIds_updateFirst taskId _ s.tasks (fun t => by cases t; simp)
          (fun t => by cases t; simp)

/-! ### Reachability -/

theorem inv_reach {s : Store} (h : Reach (fun p => p.checklist = none) s) : Inv s := by
  induction h with
  | init =>
    constructor
    · simp [usedIds, allIds, allItemIds]
    · intro i hi
      simp [usedIds, allIds, allItemIds] at hi
  | createStep title desc pid now hs ih => exact inv_createTask title desc pid now _ ih
  | updateStep id p now hs hok ih => exact inv_updateTask id p now _ hok ih
  | deleteStep id hs ih => exact inv_deleteTask id _ ih
  | addItemStep taskId text now hs ih => exact inv_addChecklistItem taskId text now _ ih
  | updateItemStep taskId itemId text completed now hs ih =>
    exact inv_updateChecklistItem taskId itemId text completed now _ ih
  | removeItemStep taskId itemId now hs ih =>
    exact inv_removeChecklistItem taskId itemId now _ ih
  | emailStep taskId recipient sentAt url hs ih =>
    exact inv_recordEmailReminder taskId recipient sentAt url _ ih

/-! ### Non-empty titles -/

theorem titles_createTask (title desc : Option String) (pid : Option Nat) (now : Nat)
    (s : Store) (h : ∀ t ∈ preorder s.tasks, t.title ≠ "") :
    ∀ t ∈ preorder (createTask title desc pid now s).snd.tasks, t.title ≠ "" := by
  by_cases ht : title.getD "" = ""
  · simpa [createTask, ht] using h
  · rcases pid with _ | pid0
    · intro t hmem
      simp only [createTask, ht, if_false, reduceCtorEq] at hmem
      rw [preorder_append] at hmem
      rcases List.mem_append.mp hmem with h1 | h1
      · exact h t h1
      · have heq : t = newTaskFor s.nextId (title.getD "") (desc.getD "") now := by
          simpa [newTaskFor, preorder] using h1
        subst heq
        simpa [newTaskFor] using ht
    · by_cases hp : (findTaskById pid0 s.tasks).isSome = true
      · intro t hmem
        simp only [createTask, ht, if_false, hp, if_true, reduceCtorEq] at hmem
        refine dataOK_addChild (fun d => d.title ≠ "") pid0 _ now s.tasks
          (fun d hd => by simpa using hd) ?_ h t hmem
        intro u hu
        have heq : u = newTaskFor s.nextId (title.getD "") (desc.getD "") now := by
          simpa [newTaskFor, preorder] using hu
        subst heq
        simpa [newTaskFor] using ht
      · simp only [createTask, ht, if_false]
        simpa [hp] using h

theorem titles_updateTask (id : Nat) (p : UpdatePayload) (now : Nat) (s : Store)
    (hp : p.title ≠ some "")
    (h : ∀ t ∈ preorder s.tasks, t.title ≠ "") :
    ∀ t ∈ preorder (updateTask id p now s).snd.tasks, t.title ≠ "" := by
  rcases hf : findTaskById id s.tasks with _ | t0
  · simpa [updateTask, hf] using h
  · intro t hmem
    simp only [updateTask, hf] at hmem
    refine dataOK_updateFirst (fun d => d.title ≠ "") id _ s.tasks
      (applyUpdate_children p now) ?_ h t hmem
    intro u hu
    cases u with
    | node d c =>
      simp only [applyUpdate, Task.data_node]
      rcases hpt : p.title with _ | x
      · simpa using hu
      · have hx : x ≠ "" := fun hx => hp (by rw [hpt, hx])
        simpa using hx

theorem titles_deleteTask (id : Nat) (s : Store)
    (h : ∀ t ∈ preorder s.tasks, t.title ≠ "") :
    ∀ t ∈ preorder (deleteTask id s).snd.tasks, t.title ≠ "" := by
  intro t hmem
  simp only [deleteTask] at hmem
  exact dataOK_remove (fun d => d.title ≠ "") id s.tasks h t hmem

theorem titles_addChecklistItem (taskId : Nat) (text : Option String) (now : Nat)
    (s : Store) (h : ∀ t ∈ preorder s.tasks, t.title ≠ "") :
    ∀ t ∈ preorder (addChecklistItem taskId text now s).snd.tasks, t.title ≠ "" := by
  rcases hf : findTaskById taskId s.tasks with _ | t0
  · simpa [addChecklistItem, hf] using h
  · by_cases htx : text.getD "" = ""
    · simpa [addChecklistItem, hf, htx] using h
    · intro t hmem
      simp only [addChecklistItem, hf, htx, if_false, reduceCtorEq] at hmem
      refine dataOK_updateFirst (fun d => d.title ≠ "") taskId _ s.tasks
        (fun u => by cases u; simp) ?_ h t hmem
      intro u hu
      cases u
      simpa using hu

theorem titles_updateChecklistItem (taskId itemId : Nat) (text : Option String)
    (completed : Option Bool) (now : Nat) (s : Store)
    (h : ∀ t ∈ preorder s.tasks, t.title ≠ "") :
    ∀ t ∈ preorder (updateChecklistItem taskId itemId text completed now s).snd.tasks,
      t.title ≠ "" := by
  rcases hf : findTaskById taskId s.tasks with _ | t0
  · simpa [updateChecklistItem, hf] using h
  · rcases hi : t0.data.checklist.find? (fun i => i.id == itemId) with _ | item
    · simpa [updateChecklistItem, hf, hi] using h
    · intro t hmem
      simp only [updateChecklistItem, hf, hi] at hmem
      refine dataOK_updateFirst (fun d => d.title ≠ "") taskId _ s.tasks
        (fun u => by cases u; simp) ?_ h t hmem
      intro u hu
      cases u
      simpa using hu

theorem titles_removeChecklistItem (taskId itemId : Nat) (now : Nat) (s : Store)
    (h : ∀ t ∈ preorder s.tasks, t.title ≠ "") :
    ∀ t ∈ preorder (removeChecklistItem taskId itemId now s).snd.tasks, t.title ≠ "" := by
  rcases hf : findTaskById taskId s.tasks with _ | t0
  · simpa [removeChecklistItem, hf] using h
  · rcases hi : t0.data.checklist.findIdx? (fun i => i.id == itemId) with _ | idx
    · simpa [removeChecklistItem, hf, hi] using h
    · intro t hmem
      simp only [removeChecklistItem, hf, hi] at hmem
      refine dataOK_updateFirst (fun d => d.title ≠ "") taskId _ s.tasks
        (fun u => by cases u; simp) ?_ h t hmem
      intro u hu
      cases u
      simpa using hu

theorem titles_recordEmailReminder (taskId : Nat) (recipient : Option String)
    (sentAt : Nat) (url : String) (s : Store)
    (h : ∀ t ∈ preorder s.tasks, t.title ≠ "") :
    ∀ t ∈ preorder (recordEmailReminder taskId recipient sentAt url s).snd.tasks,
      t.title ≠ "" := by
  rcases hf : findTaskById taskId s.tasks with _ | t0
  · simpa [recordEmailReminder, hf] using h
  · by_cases hr : recipient.getD "" = ""
    · simpa [recordEmailReminder, hf, hr] using h
    · intro t hmem
      simp only [recordEmailReminder, hf, hr, if_false, reduceCtorEq] at hmem
      refine dataOK_updateFirst (fun d => d.title ≠ "") taskId _ s.tasks
        (fun u => by cases u; simp) ?_ h t hmem
      intro u hu
      cases u
      simpa using hu

theorem titles_reach {s : Store}
    (h : Reach (fun p => p.title ≠ some "") s) :
    ∀ t ∈ preorder s.tasks, t.title ≠ "" := by
  induction h with
  | init => simp [preorder]
  | createStep title desc pid now hs ih => exact titles_createTask title desc pid now _ ih
  | updateStep id p now hs hok ih => exact titles_updateTask id p now _ hok ih
  | deleteStep id hs ih => exact titles_deleteTask id _ ih
  | addItemStep taskId text now hs ih => exact titles_addChecklistItem taskId text now _ ih
  | updateItemStep taskId itemId text completed now hs ih =>
    exact titles_updateChecklistItem taskId itemId text completed now _ ih
  | removeItemStep taskId itemId now hs ih =>
    exact titles_removeChecklistItem taskId itemId now _ ih
  | emailStep taskId recipient sentAt url hs ih =>
    exact titles_recordEmailReminder taskId recipient sentAt url _ ih

/-! ## Claims -/

/-- C1: for every forest and id, `findTaskById` visits tasks in preorder
depth-first order — each task's own id first, then its children recursively
in child-list order, over every top-level task — and returns the first task
whose id matches, or `none` when no task at any depth has that id. -/
theorem c1_find_preorder_first_match (id : Nat) (ts : List Task) :
    findTaskById id ts = (preorder ts).find? (fun t => t.id == id) ∧
    (findTaskById id ts = none ↔ ∀ t ∈ preorder ts, t.id ≠ id) := by
  refine ⟨find_eq_find? id ts, ?_⟩
  rw [find_eq_none_iff, ← map_id_preorder]
  constructor
  · intro h t ht heq
    exact h (List.mem_map.mpr ⟨t, ht, heq⟩)
  · intro h hmem
    rcases List.mem_map.mp hmem with ⟨t, ht, heq⟩
    exact h t ht heq

/-- C2: after a successful removal of the task `findTaskById` resolves, that
task's whole subtree — the task and every descendant, at any depth — is
unreachable through `findTaskById`; no descendant is promoted to another
list. -/
theorem c2_remove_unreaches_subtree (tid : Nat) (ts : List Task) (t : Task)
    (hnd : (allIds ts).Nodup) (hfind : findTaskById tid ts = some t) :
    ∀ d ∈ preorder [t], findTaskById d.id (removeTaskById tid ts).snd = none := by
  intro d hd
  obtain ⟨X, Y, h1, h2, h3⟩ := remove_decomp tid ts t hfind
  rw [find_eq_none_iff, h3]
  have hdid : d.id ∈ subtreeIds t := by
    rw [subtreeIds, ← map_id_preorder]
    exact List.mem_map.mpr ⟨d, hd, rfl⟩
  rw [h1, List.nodup_append] at hnd
  obtain ⟨hX, hSY, hdisj⟩ := hnd
  rw [List.nodup_append] at hSY
  obtain ⟨hS, hY, hdisj2⟩ := hSY
  intro hmem
  rcases List.mem_append.mp hmem with hx | hy
  · exact hdisj hx (List.mem_append.mpr (Or.inl hdid))
  · exact hdisj2 hdid hy

/-- Witness for C2 on a concrete three-level forest: removing the middle
task makes it and its grandchild unreachable. -/
theorem c2_witness :
    (allIds [Task.node ⟨1, "a", "", false, [], none, 0, 0⟩
      [Task.node ⟨2, "b", "", false, [], none, 0, 0⟩
        [Task.node ⟨3, "c", "", false, [], none, 0, 0⟩ []]]]).Nodup ∧
    ∀ d ∈ preorder [Task.node ⟨2, "b", "", false, [], none, 0, 0⟩
        [Task.node ⟨3, "c", "", false, [], none, 0, 0⟩ []]],
      findTaskById d.id (removeTaskById 2
        [Task.node ⟨1, "a", "", false, [], none, 0, 0⟩
          [Task.node ⟨2, "b", "", false, [], none, 0, 0⟩
            [Task.node ⟨3, "c", "", false, [], none, 0, 0⟩ []]]]).snd = none := by
  refine ⟨by simp [allIds], ?_⟩
  exact c2_remove_unreaches_subtree 2 _ _ (by simp [allIds]) (by simp [findTaskById])

/-- C3: `removeTaskById` reports found exactly when `findTaskById` resolves,
removes the first matching task (with its subtree) at the position of the
first occurrence of the id in the shared depth-first traversal, never fails
with an error, and a second removal of the same id reports not-found. -/
theorem c3_remove_agrees_with_find (id : Nat) (ts : List Task)
    (hnd : (allIds ts).Nodup) :
    (removeTaskById id ts).fst = (findTaskById id ts).isSome ∧
    (∀ t, findTaskById id ts = some t →
      ∃ X Y, allIds ts = X ++ (subtreeIds t ++ Y) ∧ id ∉ X ∧
        allIds (removeTaskById id ts).snd = X ++ Y) ∧
    ((findTaskById id ts).isSome = true →
      (removeTaskById id (removeTaskById id ts).snd).fst = false) := by
  refine ⟨remove_fst_eq id ts, remove_decomp id ts, ?_⟩
  intro hsome
  rcases Option.isSome_iff_exists.mp hsome with ⟨t, htf⟩
  obtain ⟨X, Y, h1, h2, h3⟩ := remove_decomp id ts t htf
  have hid_t : t.id = id := find_id_of_eq_some htf
  have hmem_sub : id ∈ subtreeIds t := by
    rcases t with ⟨d, c⟩
    have : d.id = id := by simpa using hid_t
    simp [subtreeIds, allIds, this]
  have hnone : findTaskById id (removeTaskById id ts).snd = none := by
    rw [find_eq_none_iff, h3]
    rw [h1, List.nodup_append] at hnd
    obtain ⟨hX, hSY, hdisj⟩ := hnd
    rw [List.nodup_append] at hSY
    obtain ⟨hS, hY, hdisj2⟩ := hSY
    intro hmem
    rcases List.mem_append.mp hmem with hx | hy
    · exact hdisj hx (List.mem_append.mpr (Or.inl hmem_sub))
    · exact hdisj2 hmem_sub hy
  rw [remove_fst_eq, hnone]
  rfl

/-- Witness for C3 on a concrete two-task forest. -/
theorem c3_witness :
    (removeTaskById 2 [Task.node ⟨1, "a", "", false, [], none, 0, 0⟩
        [Task.node ⟨2, "b", "", false, [], none, 0, 0⟩ []]]).fst =
      (findTaskById 2 [Task.node ⟨1, "a", "", false, [], none, 0, 0⟩
        [Task.node ⟨2, "b", "", false, [], none, 0, 0⟩ []]]).isSome ∧
    (∀ t, findTaskById 2 [Task.node ⟨1, "a", "", false, [], none, 0, 0⟩
        [Task.node ⟨2, "b", "", false, [], none, 0, 0⟩ []]] = some t →
      ∃ X Y, allIds [Task.node ⟨1, "a", "", false, [], none, 0, 0⟩
          [Task.node ⟨2, "b", "", false, [], none, 0, 0⟩ []]] = X ++ (subtreeIds t ++ Y) ∧
        2 ∉ X ∧
        allIds (removeTaskById 2 [Task.node ⟨1, "a", "", false, [], none, 0, 0⟩
          [Task.node ⟨2, "b", "", false, [], none, 0, 0⟩ []]]).snd = X ++ Y) ∧
    ((findTaskById 2 [Task.node ⟨1, "a", "", false, [], none, 0, 0⟩
        [Task.node ⟨2, "b", "", false, [], none, 0, 0⟩ []]]).isSome = true →
      (removeTaskById 2 (removeTaskById 2 [Task.node ⟨1, "a", "", false, [], none, 0, 0⟩
        [Task.node ⟨2, "b", "", false, [], none, 0, 0⟩ []]]).snd).fst = false) :=
  c3_remove_agrees_with_find 2 _ (by simp [allIds])

/-- C4: every handler outcome that is a `ValidationError` or `NotFoundError`
leaves the store completely unchanged: create with an empty/absent title
appends no task anywhere; create with an unresolvable `parentId` fails with
`NotFoundError` rather than falling back to root level and appends nothing;
checklist (and update/email) operations on an unresolved task or item
mutate no task. -/
theorem c4_errors_leave_store_unchanged (s : Store)
    (title desc text recipient : Option String) (pid : Option Nat)
    (tid itemId now : Nat) (p : UpdatePayload) (cb : Option Bool) (url : String) :
    (∀ e, (createTask title desc pid now s).fst = Except.error e →
      (createTask title desc pid now s).snd = s) ∧
    (title.getD "" = "" →
      createTask title desc pid now s =
        (Except.error (ApiError.validation "Title is required"), s)) ∧
    (∀ pid0, title.getD "" ≠ "" → pid = some pid0 →
      findTaskById pid0 s.tasks = none →
      createTask title desc pid now s =
        (Except.error (ApiError.notFound "Parent task not found"), s)) ∧
    (∀ e, (updateTask tid p now s).fst = Except.error e →
      (updateTask tid p now s).snd = s) ∧
    ((deleteTask tid s).fst = false → (deleteTask tid s).snd = s) ∧
    (∀ e, (addChecklistItem tid text now s).fst = Except.error e →
      (addChecklistItem tid text now s).snd = s) ∧
    (∀ e, (updateChecklistItem tid itemId text cb now s).fst = Except.error e →
      (updateChecklistItem tid itemId text cb now s).snd = s) ∧
    (∀ e, (removeChecklistItem tid itemId now s).fst = Except.error e →
      (removeChecklistItem tid itemId now s).snd = s) ∧
    (∀ e, (recordEmailReminder tid recipient now url s).fst = Except.error e →
      (recordEmailReminder tid recipient now url s).snd = s) := by
  refine ⟨?_, ?_, ?_, ?_, ?_, ?_, ?_, ?_, ?_⟩
  · intro e he
    by_cases ht : title.getD "" = ""
    · simp [createTask, ht]
    · rcases pid with _ | pid0
      · simp [createTask, ht] at he
      · by_cases hp : (findTaskById pid0 s.tasks).isSome = true
        · simp [createTask, ht, hp] at he
        · simp [createTask, ht, hp]
  · intro ht
    simp [createTask, ht]
  · intro pid0 ht hpid hfind
    subst hpid
    simp [createTask, ht, hfind]
  · intro e he
    rcases hf : findTaskById tid s.tasks with _ | t
    · simp [updateTask, hf]
    · simp [updateTask, hf] at he
  · intro hfst
    have hn : findTaskById tid s.tasks = none := by
      have := remove_fst_eq tid s.tasks
      rw [show (removeTaskById tid s.tasks).fst = false from hfst] at this
      rcases h : findTaskById tid s.tasks with _ | t
      · rfl
      · rw [h] at this
        simp at this
    simp [deleteTask, remove_of_find_none tid s.tasks hn]
  · intro e he
    rcases hf : findTaskById tid s.tasks with _ | t
    · simp [addChecklistItem, hf]
    · by_cases htx : text.getD "" = ""
      · simp [addChecklistItem, hf, htx]
      · simp [addChecklistItem, hf, htx] at he
  · intro e he
    rcases hf : findTaskById tid s.tasks with _ | t
    · simp [updateChecklistItem, hf]
    · rcases hi : t.data.checklist.find? (fun i => i.id == itemId) with _ | item
      · simp [updateChecklistItem, hf, hi]
      · simp [updateChecklistItem, hf, hi] at he
  · intro e he
    rcases hf : findTaskById tid s.tasks with _ | t
    · simp [removeChecklistItem, hf]
    · rcases hi : t.data.checklist.findIdx? (fun i => i.id == itemId) with _ | idx
      · simp [removeChecklistItem, hf, hi]
      · simp [removeChecklistItem, hf, hi] at he
  · intro e he
    rcases hf : findTaskById tid s.tasks with _ | t
    · simp [recordEmailReminder, hf]
    · by_cases hr : recipient.getD "" = ""
      · simp [recordEmailReminder, hf, hr]
      · simp [recordEmailReminder, hf, hr] at he

/-- Witness for C4 on the empty store. -/
theorem c4_witness :
    ∀ e, (createTask none none none 0 { tasks := [], nextId := 0 }).fst = Except.error e →
      (createTask none none none 0 { tasks := [], nextId := 0 }).snd =
        { tasks := [], nextId := 0 } := by
  intro e he
  exact (c4_errors_leave_store_unchanged { tasks := [], nextId := 0 }
    none none none none none 0 0 0 ⟨none, none, none, none, none⟩ none "").1 e he

/-- C5: for a resolvable id, `updateTask` returns the task with exactly the
provided fields overwritten — each absent field keeps its prior value, the
task's `id`, `createdAt` and `children` are never modified, `updatedAt` is
set to `now` unconditionally — and the stored forest reflects the same
updated task. -/
theorem c5_update_frame (id : Nat) (p : UpdatePayload) (now : Nat) (s : Store)
    (t : Task) (hfind : findTaskById id s.tasks = some t) :
    (updateTask id p now s).fst = Except.ok (applyUpdate p now t) ∧
    (applyUpdate p now t).id = t.id ∧
    (applyUpdate p now t).createdAt = t.createdAt ∧
    (applyUpdate p now t).children = t.children ∧
    (applyUpdate p now t).updatedAt = now ∧
    (applyUpdate p now t).title = p.title.getD t.title ∧
    (applyUpdate p now t).data.description = p.description.getD t.data.description ∧
    (applyUpdate p now t).completed = p.completed.getD t.completed ∧
    (applyUpdate p now t).data.checklist = p.checklist.getD t.data.checklist ∧
    (applyUpdate p now t).data.emailReminder = p.emailReminder.getD t.data.emailReminder ∧
    findTaskById id (updateTask id p now s).snd.tasks = some (applyUpdate p now t) := by
  refine ⟨by simp [updateTask, hfind], ?_, ?_, ?_, ?_, ?_, ?_, ?_, ?_, ?_, ?_⟩
  · exact applyUpdate_id p now t
  · cases t
    simp [applyUpdate]
  · exact applyUpdate_children p now t
  · cases t
    simp [applyUpdate]
  · cases t
    simp [applyUpdate]
  · cases t
    simp [applyUpdate]
  · cases t
    simp [applyUpdate]
  · cases t
    simp [applyUpdate]
  · cases t
    simp [applyUpdate]
  · simp only [updateTask, hfind]
    rw [find_updateFirst id _ s.tasks (applyUpdate_id p now), hfind]
    rfl

/-- Witness for C5: updating only `completed` on a concrete one-task store. -/
theorem c5_witness :
    (updateTask 1 ⟨none, none, some true, none, none⟩ 7
      { tasks := [Task.node ⟨1, "a", "", false, [], none, 0, 0⟩ []], nextId := 2 }).fst =
      Except.ok (applyUpdate ⟨none, none, some true, none, none⟩ 7
        (Task.node ⟨1, "a", "", false, [], none, 0, 0⟩ [])) ∧
    (applyUpdate ⟨none, none, some true, none, none⟩ 7
      (Task.node ⟨1, "a", "", false, [], none, 0, 0⟩ [])).id =
      (Task.node ⟨1, "a", "", false, [], none, 0, 0⟩ ([] : List Task)).id ∧
    (applyUpdate ⟨none, none, some true, none, none⟩ 7
      (Task.node ⟨1, "a", "", false, [], none, 0, 0⟩ [])).createdAt =
      (Task.node ⟨1, "a", "", false, [], none, 0, 0⟩ ([] : List Task)).createdAt ∧
    (applyUpdate ⟨none, none, some true, none, none⟩ 7
      (Task.node ⟨1, "a", "", false, [], none, 0, 0⟩ [])).children =
      (Task.node ⟨1, "a", "", false, [], none, 0, 0⟩ ([] : List Task)).children ∧
    (applyUpdate ⟨none, none, some true, none, none⟩ 7
      (Task.node ⟨1, "a", "", false, [], none, 0, 0⟩ [])).updatedAt = 7 ∧
    (applyUpdate ⟨none, none, some true, none, none⟩ 7
      (Task.node ⟨1, "a", "", false, [], none, 0, 0⟩ [])).title =
      (none : Option String).getD (Task.node ⟨1, "a", "", false, [], none, 0, 0⟩ ([] : List Task)).title ∧
    (applyUpdate ⟨none, none, some true, none, none⟩ 7
      (Task.node ⟨1, "a", "", false, [], none, 0, 0⟩ [])).data.description =
      (none : Option String).getD (Task.node ⟨1, "a", "", false, [], none, 0, 0⟩ ([] : List Task)).data.description ∧
    (applyUpdate ⟨none, none, some true, none, none⟩ 7
      (Task.node ⟨1, "a", "", false, [], none, 0, 0⟩ [])).completed =
      (some true).getD (Task.node ⟨1, "a", "", false, [], none, 0, 0⟩ ([] : List Task)).completed ∧
    (applyUpdate ⟨none, none, some true, none, none⟩ 7
      (Task.node ⟨1, "a", "", false, [], none, 0, 0⟩ [])).data.checklist =
      (none : Option (List ChecklistItem)).getD (Task.node ⟨1, "a", "", false, [], none, 0, 0⟩ ([] : List Task)).data.checklist ∧
    (applyUpdate ⟨none, none, some true, none, none⟩ 7
      (Task.node ⟨1, "a", "", false, [], none, 0, 0⟩ [])).data.emailReminder =
      (none : Option (Option EmailReminder)).getD (Task.node ⟨1, "a", "", false, [], none, 0, 0⟩ ([] : List Task)).data.emailReminder ∧
    findTaskById 1 (updateTask 1 ⟨none, none, some true, none, none⟩ 7
      { tasks := [Task.node ⟨1, "a", "", false, [], none, 0, 0⟩ []], nextId := 2 }).snd.tasks =
      some (applyUpdate ⟨none, none, some true, none, none⟩ 7
        (Task.node ⟨1, "a", "", false, [], none, 0, 0⟩ [])) :=
  c5_update_frame 1 ⟨none, none, some true, none, none⟩ 7
    { tasks := [Task.node ⟨1, "a", "", false, [], none, 0, 0⟩ []], nextId := 2 }
    (Task.node ⟨1, "a", "", false, [], none, 0, 0⟩ []) (by simp [findTaskById])

/-- C10: in create, title validation takes precedence over parent
resolution — an empty or absent title always yields the `ValidationError`,
for every `parentId` (resolvable or not), never a `NotFoundError`. -/
theorem c10_title_validation_first (desc : Option String) (pid : Option Nat)
    (now : Nat) (s : Store) :
    createTask none desc pid now s =
      (Except.error (ApiError.validation "Title is required"), s) ∧
    createTask (some "") desc pid now s =
      (Except.error (ApiError.validation "Title is required"), s) := by
  constructor
  · simp [createTask]
  · simp [createTask]

/-- C8: for every non-empty title, create followed by lookup, an update
setting `completed`, and a second lookup yields a task that is completed and
whose `updatedAt` is strictly greater than its `createdAt` (the wall clock
having advanced between the two calls). -/
theorem c8_create_update_roundtrip (x : String) (n0 n1 : Nat) (s : Store)
    (hx : x ≠ "") (hbound : ∀ i ∈ allIds s.tasks, i < s.nextId) (ht : n0 < n1) :
    ∃ t1 t2,
      (createTask (some x) none none n0 s).fst = Except.ok t1 ∧
      findTaskById t1.id (createTask (some x) none none n0 s).snd.tasks = some t1 ∧
      (updateTask t1.id ⟨none, none, some true, none, none⟩ n1
        (createTask (some x) none none n0 s).snd).fst = Except.ok t2 ∧
      findTaskById t1.id (updateTask t1.id ⟨none, none, some true, none, none⟩ n1
        (createTask (some x) none none n0 s).snd).snd.tasks = some t2 ∧
      t2.completed = true ∧ t2.createdAt < t2.updatedAt := by
  have hcreate : createTask (some x) none none n0 s =
      (Except.ok (newTaskFor s.nextId x "" n0),
       { tasks := s.tasks ++ [newTaskFor s.nextId x "" n0], nextId := s.nextId + 1 }) := by
    simp [createTask, hx]
  have hfresh : findTaskById s.nextId s.tasks = none :=
    find_eq_none_iff.mpr (fun hmem => absurd (hbound _ hmem) (lt_irrefl _))
  have hid1 : (newTaskFor s.nextId x "" n0).id = s.nextId := by simp [newTaskFor]
  have hfind1 : findTaskById (newTaskFor s.nextId x "" n0).id
      (s.tasks ++ [newTaskFor s.nextId x "" n0]) = some (newTaskFor s.nextId x "" n0) := by
    rw [hid1, find_append, hfresh]
    simp [findTaskById, newTaskFor]
  refine ⟨newTaskFor s.nextId x "" n0,
    applyUpdate ⟨none, none, some true, none, none⟩ n1 (newTaskFor s.nextId x "" n0),
    ?_, ?_, ?_, ?_, ?_, ?_⟩
  · rw [hcreate]
  · rw [hcreate]
    exact hfind1
  · rw [hcreate]
    simp [updateTask, hfind1]
  · rw [hcreate]
    have hfu := find_updateFirst (newTaskFor s.nextId x "" n0).id
      (applyUpdate ⟨none, none, some true, none, none⟩ n1)
      (s.tasks ++ [newTaskFor s.nextId x "" n0])
      (applyUpdate_id ⟨none, none, some true, none, none⟩ n1)
    simp [updateTask, hfind1, hfu]
  · simp [applyUpdate, newTaskFor]
  · simpa [applyUpdate, newTaskFor] using ht

/-- Witness for C8: the round trip on the empty store at times 0 and 1. -/
theorem c8_witness :
    ∃ t1 t2,
      (createTask (some "X") none none 0 { tasks := [], nextId := 0 }).fst = Except.ok t1 ∧
      findTaskById t1.id
        (createTask (some "X") none none 0 { tasks := [], nextId := 0 }).snd.tasks = some t1 ∧
      (updateTask t1.id ⟨none, none, some true, none, none⟩ 1
        (createTask (some "X") none none 0 { tasks := [], nextId := 0 }).snd).fst =
        Except.ok t2 ∧
      findTaskById t1.id (updateTask t1.id ⟨none, none, some true, none, none⟩ 1
        (createTask (some "X") none none 0 { tasks := [], nextId := 0 }).snd).snd.tasks =
        some t2 ∧
      t2.completed = true ∧ t2.createdAt < t2.updatedAt :=
  c8_create_update_roundtrip "X" 0 1 { tasks := [], nextId := 0 }
    (by decide) (by simp [allIds]) (by decide)

/-- C9: checklist progress is `completed / total * 100` when the checklist
has at least one item and is defined as 0 for an empty checklist (never
dividing by zero); in particular 0 items yield 0% and 2 of 4 completed
items yield 50%. -/
theorem c9_progress_formula (cl : List ChecklistItem) :
    (cl.length = 0 → progressPercent cl = 0) ∧
    (0 < cl.length → progressPercent cl =
      (((cl.filter (fun i => i.completed)).length : ℚ) / (cl.length : ℚ)) * 100) ∧
    progressPercent [] = 0 ∧
    progressPercent [⟨0, "a", true⟩, ⟨1, "b", true⟩, ⟨2, "c", false⟩, ⟨3, "d", false⟩] = 50 := by
  refine ⟨?_, ?_, ?_, ?_⟩
  · intro h
    simp [progressPercent, h]
  · intro h
    simp [progressPercent, h]
  · simp [progressPercent]
  · norm_num [progressPercent, List.filter]

/-- Witness for C9: the empty checklist. -/
theorem c9_witness :
    ([] : List ChecklistItem).length = 0 ∧ progressPercent [] = 0 :=
  ⟨rfl, (c9_progress_formula []).1 rfl⟩

/-- C6 counterexample: the claim "all task and checklist-item ids are
globally unique at every reachable state" fails as stated, because
PUT /api/tasks/:id accepts a wholesale `checklist` replacement whose items
carry client-chosen ids: after creating one task and updating it with a
checklist item whose id equals the task's own id, the reachable store holds
a duplicated id. -/
theorem c6_counterexample :
    Reach (fun _ => True)
      (updateTask 0 ⟨none, none, none, some [⟨0, "x", false⟩], none⟩ 1
        (createTask (some "A") none none 0 { tasks := [], nextId := 0 }).snd).snd ∧
    ¬ (usedIds
      (updateTask 0 ⟨none, none, none, some [⟨0, "x", false⟩], none⟩ 1
        (createTask (some "A") none none 0 { tasks := [], nextId := 0 }).snd).snd).Nodup := by
  constructor
  · exact Reach.updateStep 0 _ 1 (Reach.createStep (some "A") none none 0 Reach.init) trivial
  · simp [createTask, newTaskFor, updateTask, findTaskById, applyUpdate, updateFirst,
      usedIds, allIds, allItemIds]

/-- C6 (amended): every id issued by create or addItem is distinct from
every id already present anywhere in the forest, and all task and
checklist-item ids are globally unique at every state reachable while no
update supplies a wholesale `checklist` replacement (which can inject
client-chosen, colliding item ids). -/
theorem c6_ids_unique_amended (s : Store)
    (h : Reach (fun p => p.checklist = none) s) :
    (usedIds s).Nodup ∧
    (∀ title desc pid now t s2,
      createTask (some title) desc pid now s = (Except.ok t, s2) →
      t.id ∉ usedIds s) ∧
    (∀ taskId text now item s2,
      addChecklistItem taskId (some text) now s = (Except.ok item, s2) →
      item.id ∉ usedIds s) := by
  have hinv := inv_reach h
  refine ⟨hinv.1, ?_, ?_⟩
  · intro title desc pid now t s2 hc
    have hid : t.id = s.nextId := by
      by_cases ht : title = ""
      · simp [createTask, ht] at hc
      · rcases pid with _ | pid0
        · simp only [createTask, Option.getD_some, ht, if_false, Prod.mk.injEq,
            Except.ok.injEq, reduceCtorEq] at hc
          rw [← hc.1]
          simp [newTaskFor]
        · by_cases hp : (findTaskById pid0 s.tasks).isSome = true
          · simp only [createTask, Option.getD_some, ht, if_false, hp, if_true,
              Prod.mk.injEq, Except.ok.injEq, reduceCtorEq] at hc
            rw [← hc.1]
            simp [newTaskFor]
          · simp [createTask, ht, hp] at hc
    rw [hid]
    exact nextId_not_used hinv
  · intro taskId text now item s2 hc
    have hid : item.id = s.nextId := by
      rcases hf : findTaskById taskId s.tasks with _ | t0
      · simp [addChecklistItem, hf] at hc
      · by_cases htx : text = ""
        · simp [addChecklistItem, hf, htx] at hc
        · simp only [addChecklistItem, hf, Option.getD_some, htx, if_false,
            Prod.mk.injEq, Except.ok.injEq, reduceCtorEq] at hc
          rw [← hc.1]
    rw [hid]
    exact nextId_not_used hinv

/-- Witness for C6 after one create step. -/
theorem c6_witness :
    (usedIds (createTask (some "A") none none 0 { tasks := [], nextId := 0 }).snd).Nodup ∧
    (∀ title desc pid now t s2,
      createTask (some title) desc pid now
        (createTask (some "A") none none 0 { tasks := [], nextId := 0 }).snd =
        (Except.ok t, s2) →
      t.id ∉ usedIds (createTask (some "A") none none 0 { tasks := [], nextId := 0 }).snd) ∧
    (∀ taskId text now item s2,
      addChecklistItem taskId (some text) now
        (createTask (some "A") none none 0 { tasks := [], nextId := 0 }).snd =
        (Except.ok item, s2) →
      item.id ∉ usedIds (createTask (some "A") none none 0 { tasks := [], nextId := 0 }).snd) :=
  c6_ids_unique_amended _ (Reach.createStep (some "A") none none 0 Reach.init)

/-- C7 counterexample: the claim "no operation can make an existing task's
title empty" fails as stated: PUT /api/tasks/:id applies a provided `title`
field without validating it, so updating a created task with `title = ""`
yields a reachable state whose task has an empty title. -/
theorem c7_counterexample :
    Reach (fun _ => True)
      (updateTask 0 ⟨some "", none, none, none, none⟩ 1
        (createTask (some "A") none none 0 { tasks := [], nextId := 0 }).snd).snd ∧
    Option.map Task.title (findTaskById 0
      ((updateTask 0 ⟨some "", none, none, none, none⟩ 1
        (createTask (some "A") none none 0 { tasks := [], nextId := 0 }).snd).snd).tasks) =
      some "" := by
  constructor
  · exact Reach.updateStep 0 _ 1 (Reach.createStep (some "A") none none 0 Reach.init) trivial
  · simp [createTask, newTaskFor, updateTask, findTaskById, applyUpdate, updateFirst]

/-- C7 (amended): create rejects an empty or absent title, and every task
has a non-empty title at every state reachable while no update supplies an
explicitly empty `title` field; an update with `title = ""` is the one
operation that can produce an empty title. -/
theorem c7_titles_nonempty_amended (s : Store)
    (h : Reach (fun p => p.title ≠ some "") s) :
    (∀ desc pid now, createTask (some "") desc pid now s =
      (Except.error (ApiError.validation "Title is required"), s)) ∧
    (∀ desc pid now, createTask none desc pid now s =
      (Except.error (ApiError.validation "Title is required"), s)) ∧
    ∀ t ∈ preorder s.tasks, t.title ≠ "" := by
  refine ⟨?_, ?_, titles_reach h⟩
  · intro desc pid now
    simp [createTask]
  · intro desc pid now
    simp [createTask]

/-- Witness for C7 after one create step. -/
theorem c7_witness :
    (∀ desc pid now, createTask (some "") desc pid now
        (createTask (some "A") none none 0 { tasks := [], nextId := 0 }).snd =
      (Except.error (ApiError.validation "Title is required"),
        (createTask (some "A") none none 0 { tasks := [], nextId := 0 }).snd)) ∧
    (∀ desc pid now, createTask none desc pid now
        (createTask (some "A") none none 0 { tasks := [], nextId := 0 }).snd =
      (Except.error (ApiError.validation "Title is required"),
        (createTask (some "A") none none 0 { tasks := [], nextId := 0 }).snd)) ∧
    ∀ t ∈ preorder (createTask (some "A") none none 0 { tasks := [], nextId := 0 }).snd.tasks,
      t.title ≠ "" :=
  c7_titles_nonempty_amended _ (Reach.createStep (some "A") none none 0 Reach.init)

end BriPlanner
